import Mathlib

/-!
Verification of the react-hooks library (src/hooks.ts).

Each hook is embedded as a pure state-transition model. The host framework
(React) runs a render, returns the hook's value, and then runs the effects
whose dependencies changed; browser primitives (timers, fetch, localStorage,
matchMedia) are modelled as explicit state or as event inputs.
-/

/-! ### useToggle (src/hooks.ts lines 134-140)

`useToggle` holds a `Bool` in `useState initialState` and exposes
`toggle = () => setState (prev => !prev)`. The updater is functional: React
applies queued functional updaters in order, each receiving the result of
the previous one, so rapid toggles never act on a stale snapshot. -/

/-- Initial state of `useToggle`: `useState<boolean>(initialState)`. -/
def useToggle_init (initialState : Bool) : Bool := initialState

/-- The functional updater that `toggle` passes to `setState`:
`(prev) => !prev`. It receives the latest pending state. -/
def toggleUpdater (prev : Bool) : Bool := !prev

/-- React applies a queue of functional updaters in order; each updater
receives the result of the one before it (never a stale snapshot). -/
def applyUpdaterQueue (queue : List (Bool → Bool)) (s : Bool) : Bool :=
  queue.foldl (fun acc f => f acc) s

/-- The state after `n` calls of `toggle`: `n` copies of `toggleUpdater`
queued against the initial state. -/
def toggleN (initialState : Bool) (n : Nat) : Bool :=
  applyUpdaterQueue (List.replicate n toggleUpdater) (useToggle_init initialState)

/-! ### usePrevious (src/hooks.ts lines 124-132)

`usePrevious` creates `ref = useRef<T>(value)` (initialised with the
CURRENT value on the first render), returns `ref.current`, and an effect
with dependency list `[value]` assigns `ref.current = value` after the
render. The declared return type is `T | undefined`, modelled as
`Option V`. -/

variable {V E : Type}

/-- Persistent state of `usePrevious` across renders: the `ref` cell and
the dependency value the effect last ran with. -/
structure PrevState (V : Type) where
  ref : V
  lastDep : V
deriving Repr, DecidableEq

/-- First render of `usePrevious value`: `useRef<T>(value)` initialises the
ref with the current value, the hook returns `ref.current`, and the mount
effect then stores `value` into the ref. -/
def usePrevious_first (value : V) : Option V × PrevState V :=
  (some value, ⟨value, value⟩)

/-- A later render of `usePrevious value`: the hook returns the ref as it
stands at render time; afterwards the effect runs only if `value` differs
from the dependency it last ran with, storing `value` into the ref. -/
def usePrevious_next [DecidableEq V] (s : PrevState V) (value : V) :
    Option V × PrevState V :=
  if value = s.lastDep then (some s.ref, s) else (some s.ref, ⟨value, value⟩)

/-- Outputs of `usePrevious` over a sequence of renders starting from
state `s`. -/
def usePrevious_go [DecidableEq V] (s : PrevState V) : List V → List (Option V)
  | [] => []
  | v :: rest =>
    (usePrevious_next s v).1 :: usePrevious_go (usePrevious_next s v).2 rest

/-- Outputs of `usePrevious` over a full sequence of renders, the first
render included. -/
def usePrevious_run [DecidableEq V] : List V → List (Option V)
  | [] => []
  | v :: rest => (usePrevious_first v).1 :: usePrevious_go (usePrevious_first v).2 rest

/-! ### useMediaQuery (src/hooks.ts lines 107-122)

`useMediaQuery` starts from `useState<boolean>(false)`. Only inside the
mount effect does it build `window.matchMedia(query)` and call
`updateMatch()` synchronously, then subscribe to change events. The
environment is modelled as the set of query strings that currently
match. -/

/-- The browser environment: which media-query strings currently match. -/
def MediaEnv : Type := String → Bool

/-- Value returned by the first render of `useMediaQuery query`:
`useState<boolean>(false)` — effects have not run yet, so the environment
is not consulted. -/
def useMediaQuery_firstRender (_env : MediaEnv) (_query : String) : Bool :=
  false

/-- Value observed once the mount effect has run: the effect calls
`updateMatch()` which stores `window.matchMedia(query).matches`. -/
def useMediaQuery_afterMount (env : MediaEnv) (query : String) : Bool :=
  env query

/-- Value observed after a subsequent change event fires against a (new)
environment: the listener re-runs `updateMatch()`. -/
def useMediaQuery_afterChange (env : MediaEnv) (query : String) : Bool :=
  env query

/-! ### useFetch (src/hooks.ts lines 59-82)

`useFetch` holds `data : T | null` (initially `null`), `loading : boolean`
(initially `true`) and `error : Error | null` (initially `null`). The
effect on every URL change runs `setLoading(true)`, awaits
`fetch(url)` and `response.json()`, calls `setData(result)` on success,
`setError(err)` in the catch, and `setLoading(false)` in the finally
block. Nothing ever resets `data` or `error` to `null`, and the HTTP
status of the response is never inspected. Requests are not cancelled, so
a run is any interleaving of URL-change effects and request
completions. -/

/-- The reactive state of `useFetch`. -/
structure FetchState (V E : Type) where
  data : Option V
  loading : Bool
  error : Option E
deriving Repr, DecidableEq

/-- Initial `useFetch` state: `data = null`, `loading = true`,
`error = null`. -/
def useFetch_init (V E : Type) : FetchState V E :=
  ⟨none, true, none⟩

/-- Observable events of a `useFetch` run. `urlChange` is the synchronous
start of the effect (`setLoading(true)`); `resolved status body` is a
request whose `fetch` and `response.json()` both succeeded, carrying the
HTTP status the code never reads; `rejected err` is a request whose
`fetch` or `response.json()` threw. -/
inductive FetchEvent (V E : Type) where
  | urlChange : FetchEvent V E
  | resolved (status : Nat) (body : V) : FetchEvent V E
  | rejected (err : E) : FetchEvent V E
deriving Repr, DecidableEq

/-- One step of the `useFetch` state machine. On `urlChange` the effect
runs `setLoading(true)` and touches nothing else. On `resolved` the try
block runs `setData(result)` and the finally block `setLoading(false)`;
the status is ignored and `error` is not cleared. On `rejected` the catch
runs `setError(err)` and the finally block `setLoading(false)`; `data`
is left as it was. -/
def fetchStep (s : FetchState V E) : FetchEvent V E → FetchState V E
  | .urlChange => ⟨s.data, true, s.error⟩
  | .resolved _ body => ⟨some body, false, s.error⟩
  | .rejected err => ⟨s.data, false, some err⟩

/-- A `useFetch` run: fold the events over a starting state. -/
def fetchRun (s : FetchState V E) (events : List (FetchEvent V E)) : FetchState V E :=
  events.foldl fetchStep s

/-- How many requests of an event list have completed (resolved or
rejected). -/
def completedCount : List (FetchEvent V E) → Nat
  | [] => 0
  | .urlChange :: rest => completedCount rest
  | .resolved _ _ :: rest => completedCount rest + 1
  | .rejected _ :: rest => completedCount rest + 1

/-- Exactly one of `data` and `error` is populated, the other empty. -/
def exactlyOnePopulated (s : FetchState V E) : Prop :=
  (s.data.isSome ∧ s.error.isNone) ∨ (s.data.isNone ∧ s.error.isSome)

instance (s : FetchState V E) : Decidable (exactlyOnePopulated s) := by
  unfold exactlyOnePopulated; infer_instance

/-! ### useDebounce (src/hooks.ts lines 47-57)

`useDebounce value delay` holds `debouncedValue` in `useState(value)`
(so the initial render already returns the input). An effect with
dependencies `[value, delay]` arms `setTimeout(() => setDebouncedValue(value), delay)`
and its cleanup runs `clearTimeout(handler)` on the previously armed
handle. React runs the cleanup of the old effect before the new effect,
so every new update first cancels the timer armed by the previous one.
Timers are modelled as a list so that "at most one pending timer" is a
proved invariant rather than an assumption of the model. -/

/-- A pending `setTimeout` registration: its handle, the absolute time at
which it fires, and the value its callback will publish. -/
structure Timer (V : Type) where
  id : Nat
  fireTime : Nat
  value : V
deriving Repr, DecidableEq

/-- The debounce world: the `debouncedValue` state, the pending timers of
the environment, the handle held by the current effect's cleanup, a fresh
handle counter, the current time, and the list of publishes
(`setDebouncedValue` calls made by timer callbacks) so far. -/
structure DebounceState (V : Type) where
  debounced : V
  timers : List (Timer V)
  lastHandler : Nat
  nextId : Nat
  now : Nat
  published : List (Nat × V)
deriving Repr, DecidableEq

/-- Let time advance to `t`: every pending timer due by `t` fires, its
callback runs `setDebouncedValue` with the value it captured, and the
publish is recorded. -/
def fireDue (s : DebounceState V) (t : Nat) : DebounceState V :=
  { s with
    debounced := (s.timers.filter (fun tm => decide (tm.fireTime ≤ t))).foldl
      (fun _ tm => tm.value) s.debounced
    published := s.published ++
      (s.timers.filter (fun tm => decide (tm.fireTime ≤ t))).map
        (fun tm => (tm.fireTime, tm.value))
    timers := s.timers.filter (fun tm => decide (t < tm.fireTime))
    now := t }

/-- First render of `useDebounce value delay` at time `t0`:
`useState(value)` makes the input the debounced value at once, and the
mount effect arms a timer that would republish the same value after
`delay`. -/
def debounceInit (value : V) (delay : Nat) (t0 : Nat) : DebounceState V :=
  { debounced := value
    timers := [⟨0, t0 + delay, value⟩]
    lastHandler := 0
    nextId := 1
    now := t0
    published := [] }

/-- A value update at time `t`: time first advances to `t` (due timers
fire), then the old effect's cleanup runs `clearTimeout` on the handle it
holds, then the new effect arms `setTimeout` for `t + delay` capturing the
new value. -/
def debounceUpdate (delay : Nat) (s : DebounceState V) (t : Nat) (value : V) :
    DebounceState V :=
  let s1 := fireDue s t
  let s2 := { s1 with
    timers := s1.timers.filter (fun tm => decide (tm.id ≠ s1.lastHandler)) }
  { s2 with
    timers := s2.timers ++ [⟨s2.nextId, t + delay, value⟩]
    lastHandler := s2.nextId
    nextId := s2.nextId + 1 }

/-- Apply a sequence of timed value updates. -/
def debounceSteps (delay : Nat) (s : DebounceState V) :
    List (Nat × V) → DebounceState V
  | [] => s
  | (t, v) :: rest => debounceSteps delay (debounceUpdate delay s t v) rest

/-- The time of the last update, or `t0` if there was none. -/
def lastUpdTime (t0 : Nat) (updates : List (Nat × V)) : Nat :=
  updates.foldl (fun _ u => u.1) t0

/-- The value of the last update, or `v0` if there was none. -/
def lastUpdVal (v0 : V) (updates : List (Nat × V)) : V :=
  updates.foldl (fun _ u => u.2) v0

/-- A full run: initial render with `v0` at `t0`, the updates in order,
then silence until `delay` has elapsed after the last update. -/
def debounceRun (v0 : V) (delay : Nat) (t0 : Nat) (updates : List (Nat × V)) :
    DebounceState V :=
  fireDue (debounceSteps delay (debounceInit v0 delay t0) updates)
    (lastUpdTime t0 updates + delay)

/-- The updates arrive in strictly increasing time order and each one
sooner than `delay` after the previous one (the first sooner than `delay`
after `tPrev`). -/
def rapidSince (delay : Nat) : Nat → List (Nat × V) → Bool
  | _, [] => true
  | tPrev, (t, _) :: rest =>
    decide (tPrev < t) && decide (t < tPrev + delay) && rapidSince delay t rest

/-! ### useLocalStorage (src/hooks.ts lines 84-105)

`useLocalStorage key initialValue` lazily initialises its state from
`window.localStorage.getItem(key)`: a missing item or an empty string (a
falsy string) falls back to `initialValue`, and a `JSON.parse` failure is
caught and also falls back. `setValue(v)` runs `setStoredValue(v)` first
and then `window.localStorage.setItem(key, JSON.stringify(v))`; a
persistence failure is caught and swallowed, leaving the in-memory state
updated. The environment primitives `JSON.stringify` / `JSON.parse` are
modelled concretely on JSON values restricted to null, booleans, integer
numbers and strings (escaping quotes and backslashes), and the store as a
partial map from keys to character strings. -/

/-- The decimal digit characters, indexed by digit value. -/
def digitChar : Nat → Char
  | 0 => '0'
  | 1 => '1'
  | 2 => '2'
  | 3 => '3'
  | 4 => '4'
  | 5 => '5'
  | 6 => '6'
  | 7 => '7'
  | 8 => '8'
  | 9 => '9'
  | _ => '?'

/-- Decimal digits of `n`, most significant first, accumulated onto
`acc`; produces nothing for `n = 0`. -/
def natDigitsAux : Nat → List Char → List Char
  | 0, acc => acc
  | n + 1, acc => natDigitsAux ((n + 1) / 10) (digitChar ((n + 1) % 10) :: acc)
decreasing_by simp_wf; omega

/-- Decimal representation of `n`, as `JSON.stringify` renders a
non-negative integer. -/
def natDigits (n : Nat) : List Char :=
  if n = 0 then ['0'] else natDigitsAux n []

/-- Is `c` a decimal digit character. -/
def isDigitCh (c : Char) : Bool :=
  decide (48 ≤ c.toNat) && decide (c.toNat ≤ 57)

/-- Numeric value of a digit character. -/
def digitVal (c : Char) : Nat := c.toNat - 48

/-- Read a digit string left to right into the accumulator. -/
def readDigits (acc : Nat) (s : List Char) : Nat :=
  s.foldl (fun a c => a * 10 + digitVal c) acc

/-- Parse a whole character string as a non-negative decimal number. -/
def parseAllDigits (s : List Char) : Option Nat :=
  if s.isEmpty then none
  else if s.all isDigitCh then some (readDigits 0 s) else none

/-- JSON string escaping of one character: quotes and backslashes get a
backslash, everything else is copied. -/
def escChar (c : Char) : List Char :=
  if c = '\"' ∨ c = '\\' then ['\\', c] else [c]

/-- JSON string escaping of a character string. -/
def escapeChars : List Char → List Char
  | [] => []
  | c :: rest => escChar c ++ escapeChars rest

/-- Parse the body of a JSON string after the opening quote: an escaped
character is taken literally, an unescaped quote ends the string, and the
unconsumed remainder is returned alongside the content. -/
def parseStrBody : List Char → Option (List Char × List Char)
  | [] => none
  | c :: rest =>
    if c = '\\' then
      match rest with
      | [] => none
      | c2 :: rest2 => (parseStrBody rest2).map (fun p => (c2 :: p.1, p.2))
    else if c = '\"' then some ([], rest)
    else (parseStrBody rest).map (fun p => (c :: p.1, p.2))

/-- The JSON values round-tripped by the binding: null, booleans, integer
numbers and strings. -/
inductive JVal where
  | jnull : JVal
  | jbool (b : Bool) : JVal
  | jnum (n : Int) : JVal
  | jstr (s : List Char) : JVal
deriving Repr, DecidableEq

/-- Model of `JSON.stringify` on the values above. -/
def stringifyJ : JVal → List Char
  | .jnull => ['n', 'u', 'l', 'l']
  | .jbool true => ['t', 'r', 'u', 'e']
  | .jbool false => ['f', 'a', 'l', 's', 'e']
  | .jnum i => if i < 0 then '-' :: natDigits i.natAbs else natDigits i.toNat
  | .jstr s => '\"' :: (escapeChars s ++ ['\"'])

/-- Model of `JSON.parse` on whole strings denoting the values above;
anything else fails (throws). -/
def parseJ (s : List Char) : Option JVal :=
  if s = ['n', 'u', 'l', 'l'] then some .jnull
  else if s = ['t', 'r', 'u', 'e'] then some (.jbool true)
  else if s = ['f', 'a', 'l', 's', 'e'] then some (.jbool false)
  else
    match s with
    | [] => none
    | c :: rest =>
      if c = '\"' then
        match parseStrBody rest with
        | some (content, []) => some (.jstr content)
        | _ => none
      else if c = '-' then
        match parseAllDigits rest with
        | some n => some (.jnum (-(n : Int)))
        | none => none
      else
        match parseAllDigits s with
        | some n => some (.jnum (n : Int))
        | none => none

/-- The browser's key-value store: a partial map from keys to stored
strings. -/
def LocalStore : Type := String → Option (List Char)

/-- The lazy `useState` initialiser of `useLocalStorage`: read
`getItem(key)`; a missing or empty (falsy) item falls back to
`initialValue`, and a caught `JSON.parse` failure falls back too. -/
def useLocalStorage_read (store : LocalStore) (key : String) (initialValue : JVal) : JVal :=
  match store key with
  | none => initialValue
  | some item =>
    if item.isEmpty then initialValue
    else
      match parseJ item with
      | some v => v
      | none => initialValue

/-- The `setValue` closure: `setStoredValue(value)` always updates the
in-memory state first; `setItem(key, JSON.stringify(value))` then updates
the store when persistence succeeds (`persistOk`), and a failure is
caught and swallowed, leaving the store untouched. -/
def useLocalStorage_setValue (persistOk : Bool) (store : LocalStore) (key : String)
    (value : JVal) : JVal × LocalStore :=
  (value,
    if persistOk then
      fun k => if k = key then some (stringifyJ value) else store k
    else store)

/-! ### Theorems -/

/-- C8: `toggle()` flips the state using the value at invocation time (a
functional updater), so after `n` queued toggles the state is the initial
state negated `n` times; in particular two toggles from `false` give
`false` again and one toggle gives `true`. -/
theorem useToggle_flip (initialState : Bool) (n : Nat) :
    toggleN initialState n = (fun b => !b)^[n] initialState ∧
    toggleN false 2 = false ∧ toggleN false 1 = true := by
  refine ⟨?_, rfl, rfl⟩
  induction n generalizing initialState with
  | zero => rfl
  | succ k ih =>
    have h1 : toggleN initialState (k + 1) = toggleN (!initialState) k := by
      simp [toggleN, applyUpdaterQueue, useToggle_init, List.replicate_succ, toggleUpdater]
    rw [h1, ih, Function.iterate_succ_apply]

/-- C1 counterexample: on the very first render `usePrevious` returns the
current value itself (`useRef<T>(value)` seeds the ref with it), not
`undefined`: the first output of the run `1, 2, 3` is `some 1`, not
`none`. -/
theorem usePrevious_c1_counterexample :
    (usePrevious_run [(1 : Nat), 2, 3]).head? ≠ some none := by decide

/-- C1 amended: after updates `a, b, c` in sequence, querying after `c`
returns `b`; querying after the very first update returns the first value
itself (the ref is initialised with the current value, never
`undefined`). -/
theorem usePrevious_track {V : Type} [DecidableEq V] (a b c : V) :
    usePrevious_run [a, b, c] = [some a, some a, some b] := by
  by_cases hb : b = a
  · subst hb
    by_cases hc : c = b <;>
      simp [usePrevious_run, usePrevious_first, usePrevious_go, usePrevious_next, hc]
  · by_cases hc : c = b <;>
      simp [usePrevious_run, usePrevious_first, usePrevious_go, usePrevious_next, hb, hc]

/-- C4 counterexample: the first value observed from `useMediaQuery` is
the `useState(false)` default, not a synchronous evaluation of the query:
in an environment where every query matches, the first render still
returns `false`. -/
theorem useMediaQuery_c4_counterexample :
    useMediaQuery_firstRender (fun _ => true) "(max-width: 600px)" ≠
      (fun (_ : String) => true) "(max-width: 600px)" := by
  intro h
  exact Bool.false_ne_true h

/-- C4 amended: the first render of `useMediaQuery` returns `false`
unconditionally; the query is evaluated by `updateMatch()` inside the
mount effect, so the environment's answer is observed only from the
post-mount render onwards. -/
theorem useMediaQuery_amended (env : MediaEnv) (query : String) :
    useMediaQuery_firstRender env query = false ∧
    useMediaQuery_afterMount env query = env query :=
  ⟨rfl, rfl⟩

/-- C9: `useFetch` never reads the HTTP status: a resolved response whose
body parses is treated as success for any status, filling `data` and
leaving `error` as it was; in particular a 404 with a JSON body ends with
`data` set and `error` still null. -/
theorem useFetch_status_ignored (s : FetchState V E) (status : Nat) (v : V) :
    fetchStep s (.resolved status v) = ⟨some v, false, s.error⟩ ∧
    fetchRun (useFetch_init V E) [.urlChange, .resolved 404 v] = ⟨some v, false, none⟩ ∧
    fetchRun (useFetch_init V E) [.urlChange, .resolved status v] =
      fetchRun (useFetch_init V E) [.urlChange, .resolved 200 v] :=
  ⟨rfl, rfl, rfl⟩

/-- C6: a request failure (network or JSON parse) sets `error` to that
failure and `loading` to false, and leaves `data` exactly as it was
before the failing request; the failure is stored, not thrown. -/
theorem useFetch_failure_surfaced (events : List (FetchEvent V E)) (e : E) :
    (fetchRun (useFetch_init V E) (events ++ [.rejected e])).error = some e ∧
    (fetchRun (useFetch_init V E) (events ++ [.rejected e])).loading = false ∧
    (fetchRun (useFetch_init V E) (events ++ [.rejected e])).data =
      (fetchRun (useFetch_init V E) events).data := by
  simp [fetchRun, List.foldl_append, fetchStep]

/-- C3 counterexample: `useFetch` never clears a prior `error` on a URL
change (the effect has no `setError(null)`): after a rejected request, a
URL change whose request then resolves leaves `error` non-null in the
final state. -/
theorem useFetch_c3_counterexample :
    (fetchRun (useFetch_init Nat Nat)
      [.urlChange, .rejected 7, .urlChange, .resolved 200 1]).error ≠ none := by
  decide

/-- C3 amended: on every URL change the effect sets `loading` to true and
leaves `data` and `error` untouched (no clearing) before issuing the GET;
after a failed request, changing to a URL that succeeds ends with `data`
set and `error` still holding the old failure. -/
theorem useFetch_urlChange_keeps_error (s : FetchState V E) (e : E) (v : V) (status : Nat) :
    fetchStep s .urlChange = ⟨s.data, true, s.error⟩ ∧
    fetchRun (useFetch_init V E)
      [.urlChange, .rejected e, .urlChange, .resolved status v] =
      ⟨some v, false, some e⟩ :=
  ⟨rfl, rfl⟩

/-- C2 counterexample: after a resolved request followed by a rejected
one, `loading` is false and a request has completed, yet both `data` and
`error` are populated — the "exactly one" invariant fails. -/
theorem useFetch_c2_counterexample :
    ¬ exactlyOnePopulated (fetchRun (useFetch_init Nat Nat)
        [.urlChange, .resolved 200 1, .urlChange, .rejected 7]) ∧
    (fetchRun (useFetch_init Nat Nat)
        [.urlChange, .resolved 200 1, .urlChange, .rejected 7]).loading = false ∧
    1 ≤ completedCount
        ([.urlChange, .resolved 200 1, .urlChange, .rejected 7] : List (FetchEvent Nat Nat)) := by
  exact ⟨by decide, rfl, by decide⟩

/-- Populatedness of `data` or `error` is established by any completion
and never undone by a later event, since no event resets either field. -/
theorem fetchRun_populated_aux (events : List (FetchEvent V E)) :
    ∀ s : FetchState V E,
      1 ≤ completedCount events ∨ s.data.isSome = true ∨ s.error.isSome = true →
      (fetchRun s events).data.isSome = true ∨ (fetchRun s events).error.isSome = true := by
  induction events with
  | nil =>
    intro s h
    rcases h with h | h
    · simp [completedCount] at h
    · exact h
  | cons ev rest ih =>
    intro s h
    have hstep : fetchRun s (ev :: rest) = fetchRun (fetchStep s ev) rest := rfl
    rw [hstep]
    cases ev with
    | urlChange =>
      apply ih
      rcases h with h | h
      · exact Or.inl h
      · exact Or.inr h
    | resolved status body =>
      apply ih
      exact Or.inr (Or.inl rfl)
    | rejected err =>
      apply ih
      exact Or.inr (Or.inr rfl)

/-- C2 amended: once `loading` is false and at least one request has
completed, at least one of `data` and `error` is populated (both may be,
since neither field is ever cleared; "exactly one" fails — see the
counterexample). -/
theorem useFetch_at_least_one_populated (events : List (FetchEvent V E))
    (hc : 1 ≤ completedCount events)
    (_hl : (fetchRun (useFetch_init V E) events).loading = false) :
    (fetchRun (useFetch_init V E) events).data.isSome = true ∨
    (fetchRun (useFetch_init V E) events).error.isSome = true :=
  fetchRun_populated_aux events (useFetch_init V E) (Or.inl hc)

/-- A concrete run discharging the hypotheses of
`useFetch_at_least_one_populated`. -/
theorem useFetch_at_least_one_populated_witness :
    1 ≤ completedCount ([.urlChange, .resolved 200 1] : List (FetchEvent Nat Nat)) ∧
    (fetchRun (useFetch_init Nat Nat) [.urlChange, .resolved 200 1]).loading = false ∧
    ((fetchRun (useFetch_init Nat Nat) [.urlChange, .resolved 200 1]).data.isSome = true ∨
      (fetchRun (useFetch_init Nat Nat) [.urlChange, .resolved 200 1]).error.isSome = true) :=
  ⟨by decide, by decide,
    useFetch_at_least_one_populated [.urlChange, .resolved 200 1] (by decide) (by decide)⟩

/-- C10: the very first render of `useDebounce` already returns the input
value — `useState(value)` seeds the debounced slot with it — and nothing
has been published by a timer yet; only later changes wait for the
delay. -/
theorem useDebounce_initial_immediate (value : V) (delay t0 : Nat) :
    (debounceInit value delay t0).debounced = value ∧
    (debounceInit value delay t0).published = [] :=
  ⟨rfl, rfl⟩

/-- A rapid update chain restricted to an initial segment is still
rapid. -/
theorem rapidSince_append (delay : Nat) (pre suf : List (Nat × V)) :
    ∀ tP, rapidSince delay tP (pre ++ suf) = true → rapidSince delay tP pre = true := by
  induction pre with
  | nil => intro tP _; rfl
  | cons u rest ih =>
    obtain ⟨t, v⟩ := u
    intro tP h
    simp only [List.cons_append, rapidSince, Bool.and_eq_true] at h ⊢
    exact ⟨h.1, ih t h.2⟩

/-- Shape of the debounce state along a rapid chain of updates: the
pending timer armed before the chain never fires (each update comes
before its fire time), the cleanup cancels it, and exactly one fresh
timer is armed in its place; nothing is published and the debounced value
does not move. -/
theorem debounceSteps_rapid (delay : Nat) (updates : List (Nat × V)) :
    ∀ (k tP : Nat) (dbv vP : V) (pub : List (Nat × V)),
      rapidSince delay tP updates = true →
      debounceSteps delay ⟨dbv, [⟨k, tP + delay, vP⟩], k, k + 1, tP, pub⟩ updates =
        ⟨dbv, [⟨updates.length + k, lastUpdTime tP updates + delay, lastUpdVal vP updates⟩],
          updates.length + k, updates.length + k + 1, lastUpdTime tP updates, pub⟩ := by
  induction updates with
  | nil =>
    intro k tP dbv vP pub _
    simp [debounceSteps, lastUpdTime, lastUpdVal]
  | cons u rest ih =>
    obtain ⟨t, v⟩ := u
    intro k tP dbv vP pub h
    simp only [rapidSince, Bool.and_eq_true, decide_eq_true_eq] at h
    obtain ⟨⟨h1, h2⟩, h3⟩ := h
    have hnle : ¬ (tP + delay ≤ t) := by omega
    have e1 : decide (tP + delay ≤ t) = false := decide_eq_false hnle
    have e2 : decide (t < tP + delay) = true := decide_eq_true h2
    have hupd : debounceUpdate delay ⟨dbv, [⟨k, tP + delay, vP⟩], k, k + 1, tP, pub⟩ t v =
        ⟨dbv, [⟨k + 1, t + delay, v⟩], k + 1, k + 1 + 1, t, pub⟩ := by
      simp [debounceUpdate, fireDue, List.filter, e1, e2]
    rw [debounceSteps, hupd, ih (k + 1) t dbv v pub h3]
    simp only [lastUpdTime, lastUpdVal, List.foldl_cons, List.length_cons,
      DebounceState.mk.injEq, List.cons.injEq, Timer.mk.injEq, and_true, true_and,
      eq_self_iff_true]
    omega

/-- C7: along a chain of updates each arriving sooner than `delay` after
the previous one, only the last value is ever published, it is published
exactly `delay` after the last update (so no earlier than that), and at
most one timer is pending at every point of the run because each update's
effect first cancels the previously armed timer. -/
theorem useDebounce_rapid (v0 : V) (delay t0 : Nat) (updates : List (Nat × V))
    (h : rapidSince delay t0 updates = true) :
    (debounceRun v0 delay t0 updates).published =
      [(lastUpdTime t0 updates + delay, lastUpdVal v0 updates)] ∧
    (debounceRun v0 delay t0 updates).debounced = lastUpdVal v0 updates ∧
    ∀ pre suf, updates = pre ++ suf →
      (debounceSteps delay (debounceInit v0 delay t0) pre).timers.length ≤ 1 := by
  have hsteps : debounceSteps delay (debounceInit v0 delay t0) updates =
      ⟨v0, [⟨updates.length + 0, lastUpdTime t0 updates + delay, lastUpdVal v0 updates⟩],
        updates.length + 0, updates.length + 0 + 1, lastUpdTime t0 updates, []⟩ :=
    debounceSteps_rapid delay updates 0 t0 v0 v0 [] h
  have hrun : debounceRun v0 delay t0 updates =
      fireDue ⟨v0, [⟨updates.length + 0, lastUpdTime t0 updates + delay, lastUpdVal v0 updates⟩],
        updates.length + 0, updates.length + 0 + 1, lastUpdTime t0 updates, []⟩
        (lastUpdTime t0 updates + delay) := by
    rw [debounceRun, hsteps]
  refine ⟨?_, ?_, ?_⟩
  · rw [hrun]; simp [fireDue, List.filter]
  · rw [hrun]; simp [fireDue, List.filter]
  · intro pre suf hps
    have hpre : rapidSince delay t0 pre = true := by
      refine rapidSince_append delay pre suf t0 ?_
      rw [← hps]; exact h
    have hmid : debounceSteps delay (debounceInit v0 delay t0) pre =
        ⟨v0, [⟨pre.length + 0, lastUpdTime t0 pre + delay, lastUpdVal v0 pre⟩],
          pre.length + 0, pre.length + 0 + 1, lastUpdTime t0 pre, []⟩ :=
      debounceSteps_rapid delay pre 0 t0 v0 v0 [] hpre
    rw [hmid]
    simp

/-- A concrete rapid chain discharging the hypothesis of
`useDebounce_rapid`: initial value 0 at time 0, updates to 1, 2, 3 at
times 3, 5, 9 with delay 10, and only (19, 3) is ever published. -/
theorem useDebounce_rapid_witness :
    rapidSince 10 0 [((3 : Nat), (1 : Nat)), (5, 2), (9, 3)] = true ∧
    (debounceRun 0 10 0 [((3 : Nat), (1 : Nat)), (5, 2), (9, 3)]).published = [(19, 3)] :=
  ⟨by decide,
    ((useDebounce_rapid 0 10 0 [(3, 1), (5, 2), (9, 3)] (by decide)).1).trans (by decide)⟩

/-- A digit below ten prints to a character that reads back as itself. -/
theorem digitVal_digitChar (d : Nat) (h : d < 10) :
    digitVal (digitChar d) = d ∧ isDigitCh (digitChar d) = true := by
  interval_cases d <;> exact ⟨by decide, by decide⟩

/-- The accumulator of `natDigitsAux` is just appended material. -/
theorem natDigitsAux_eq_append (n : Nat) :
    ∀ acc, natDigitsAux n acc = natDigitsAux n [] ++ acc := by
  induction n using Nat.strong_induction_on with
  | _ n ih =>
    intro acc
    match n with
    | 0 => simp [natDigitsAux]
    | m + 1 =>
      rw [natDigitsAux, ih ((m + 1) / 10) (by omega) (digitChar ((m + 1) % 10) :: acc)]
      conv_rhs => rw [natDigitsAux, ih ((m + 1) / 10) (by omega) [digitChar ((m + 1) % 10)]]
      simp

/-- Every character `natDigitsAux` produces is a decimal digit. -/
theorem natDigitsAux_all_digits (n : Nat) :
    (natDigitsAux n []).all isDigitCh = true := by
  induction n using Nat.strong_induction_on with
  | _ n ih =>
    match n with
    | 0 => simp [natDigitsAux]
    | m + 1 =>
      rw [natDigitsAux, natDigitsAux_eq_append]
      rw [List.all_append]
      refine (Bool.and_eq_true _ _).mpr ⟨ih ((m + 1) / 10) (by omega), ?_⟩
      simp [List.all_cons, (digitVal_digitChar ((m + 1) % 10) (by omega)).2]

/-- Every character of `natDigits n` is a decimal digit. -/
theorem natDigits_all_digits (n : Nat) : (natDigits n).all isDigitCh = true := by
  rw [natDigits]
  by_cases h : n = 0
  · rw [if_pos h]; decide
  · rw [if_neg h]; exact natDigitsAux_all_digits n

/-- `natDigits` never prints the empty string. -/
theorem natDigits_ne_nil (n : Nat) : natDigits n ≠ [] := by
  rw [natDigits]
  by_cases h : n = 0
  · rw [if_pos h]; simp
  · rw [if_neg h]
    match n, h with
    | m + 1, _ =>
      rw [natDigitsAux, natDigitsAux_eq_append]
      simp

/-- Reading back the digits of a positive number under an accumulator. -/
theorem readDigits_natDigitsAux (n : Nat) :
    0 < n → ∀ a, readDigits a (natDigitsAux n []) =
      a * 10 ^ (natDigitsAux n []).length + n := by
  induction n using Nat.strong_induction_on with
  | _ n ih =>
    intro hpos a
    match n, hpos with
    | m + 1, _ =>
      by_cases hsmall : m + 1 < 10
      · have hdiv : (m + 1) / 10 = 0 := by omega
        have hmod : (m + 1) % 10 = m + 1 := by omega
        rw [natDigitsAux, hdiv, hmod, natDigitsAux]
        simp [readDigits, (digitVal_digitChar (m + 1) hsmall).1]
      · have hdivpos : 0 < (m + 1) / 10 := by omega
        have hfull : natDigitsAux (m + 1) [] =
            natDigitsAux ((m + 1) / 10) [] ++ [digitChar ((m + 1) % 10)] := by
          rw [natDigitsAux, natDigitsAux_eq_append]
        rw [hfull]
        have hlen : (natDigitsAux ((m + 1) / 10) [] ++ [digitChar ((m + 1) % 10)]).length =
            (natDigitsAux ((m + 1) / 10) []).length + 1 := by simp
        rw [hlen]
        have hstep : readDigits a (natDigitsAux ((m + 1) / 10) [] ++ [digitChar ((m + 1) % 10)]) =
            (readDigits a (natDigitsAux ((m + 1) / 10) [])) * 10 +
              digitVal (digitChar ((m + 1) % 10)) := by
          simp [readDigits, List.foldl_append]
        rw [hstep, ih ((m + 1) / 10) (by omega) hdivpos a,
          (digitVal_digitChar ((m + 1) % 10) (by omega)).1]
        have hdm : 10 * ((m + 1) / 10) + (m + 1) % 10 = m + 1 := Nat.div_add_mod (m + 1) 10
        rw [pow_succ]
        calc (a * 10 ^ (natDigitsAux ((m + 1) / 10) []).length + (m + 1) / 10) * 10 + (m + 1) % 10
            = a * (10 ^ (natDigitsAux ((m + 1) / 10) []).length * 10) +
              (10 * ((m + 1) / 10) + (m + 1) % 10) := by ring
          _ = a * (10 ^ (natDigitsAux ((m + 1) / 10) []).length * 10) + (m + 1) := by rw [hdm]

/-- Parsing the decimal print of any `n` gives back `n`. -/
theorem readDigits_natDigits (n : Nat) : readDigits 0 (natDigits n) = n := by
  rw [natDigits]
  by_cases h : n = 0
  · rw [if_pos h, h]; decide
  · rw [if_neg h]
    rw [readDigits_natDigitsAux n (by omega) 0]
    simp

/-- `parseAllDigits` inverts `natDigits`. -/
theorem parseAllDigits_natDigits (n : Nat) : parseAllDigits (natDigits n) = some n := by
  rw [parseAllDigits]
  rw [if_neg (by simp [List.isEmpty_iff, natDigits_ne_nil n])]
  rw [if_pos (natDigits_all_digits n)]
  rw [readDigits_natDigits]

/-- Two character strings with different heads differ. -/
theorem cons_ne_of_head_ne {a b : Char} {l l' : List Char} (h : a ≠ b) :
    a :: l ≠ b :: l' := by
  intro he
  injection he with hh _
  exact h hh

/-- A digit character is none of the dispatch characters of `parseJ`. -/
theorem isDigitCh_ne (c : Char) (h : isDigitCh c = true) :
    c ≠ 'n' ∧ c ≠ 't' ∧ c ≠ 'f' ∧ c ≠ '\"' ∧ c ≠ '-' := by
  refine ⟨?_, ?_, ?_, ?_, ?_⟩ <;> intro he <;> rw [he] at h <;> exact absurd h (by decide)

/-- Parsing an escaped string body stops exactly at the closing quote. -/
theorem parseStrBody_escape (s : List Char) (rest : List Char) :
    parseStrBody (escapeChars s ++ '\"' :: rest) = some (s, rest) := by
  induction s with
  | nil =>
    rw [show escapeChars [] ++ '\"' :: rest = '\"' :: rest by simp [escapeChars]]
    rw [parseStrBody.eq_def]
    simp
  | cons c s ih =>
    by_cases hc : c = '\"' ∨ c = '\\'
    · rw [show escapeChars (c :: s) ++ '\"' :: rest =
          '\\' :: c :: (escapeChars s ++ '\"' :: rest) by simp [escapeChars, escChar, hc]]
      rw [parseStrBody.eq_def]
      simp [ih]
    · have h1 : ¬ c = '\"' := fun h => hc (Or.inl h)
      have h2 : ¬ c = '\\' := fun h => hc (Or.inr h)
      rw [show escapeChars (c :: s) ++ '\"' :: rest =
          c :: (escapeChars s ++ '\"' :: rest) by simp [escapeChars, escChar, hc]]
      rw [parseStrBody.eq_def]
      simp [h1, h2, ih]

/-- `parseJ` inverts the string case of `stringifyJ`. -/
theorem parseJ_quoted (s : List Char) :
    parseJ ('\"' :: (escapeChars s ++ ['\"'])) = some (.jstr s) := by
  rw [parseJ]
  rw [if_neg (cons_ne_of_head_ne (by decide)), if_neg (cons_ne_of_head_ne (by decide)),
    if_neg (cons_ne_of_head_ne (by decide))]
  simp [parseStrBody_escape s []]

/-- `parseJ` inverts the negative-number case of `stringifyJ`. -/
theorem parseJ_neg_digits (m : Nat) :
    parseJ ('-' :: natDigits m) = some (.jnum (-(m : Int))) := by
  rw [parseJ]
  rw [if_neg (cons_ne_of_head_ne (by decide)), if_neg (cons_ne_of_head_ne (by decide)),
    if_neg (cons_ne_of_head_ne (by decide))]
  simp [parseAllDigits_natDigits]

/-- `parseJ` inverts the non-negative-number case of `stringifyJ`. -/
theorem parseJ_nonneg_digits (n : Nat) :
    parseJ (natDigits n) = some (.jnum (n : Int)) := by
  rcases List.exists_cons_of_ne_nil (natDigits_ne_nil n) with ⟨c, rest, hcr⟩
  have hall : isDigitCh c = true := by
    have h := natDigits_all_digits n
    rw [hcr, List.all_cons, Bool.and_eq_true] at h
    exact h.1
  have hne := isDigitCh_ne c hall
  have hpa : parseAllDigits (c :: rest) = some n := by
    rw [← hcr]; exact parseAllDigits_natDigits n
  rw [hcr, parseJ]
  rw [if_neg (cons_ne_of_head_ne hne.1), if_neg (cons_ne_of_head_ne hne.2.1),
    if_neg (cons_ne_of_head_ne hne.2.2.1)]
  simp [hne.2.2.2.1, hne.2.2.2.2, hpa]

/-- The JSON round trip: deserialising the serialised form of any value
gives back the value. -/
theorem parseJ_stringifyJ (v : JVal) : parseJ (stringifyJ v) = some v := by
  match v with
  | .jnull => rfl
  | .jbool true => rfl
  | .jbool false => rfl
  | .jnum i =>
    by_cases hi : i < 0
    · have hstr : stringifyJ (.jnum i) = '-' :: natDigits i.natAbs := by
        simp [stringifyJ, hi]
      have hval : -((i.natAbs : Nat) : Int) = i := by omega
      rw [hstr, parseJ_neg_digits, hval]
    · have hstr : stringifyJ (.jnum i) = natDigits i.toNat := by
        simp [stringifyJ, hi]
      have hval : ((i.toNat : Nat) : Int) = i := Int.toNat_of_nonneg (by omega)
      rw [hstr, parseJ_nonneg_digits, hval]
  | .jstr s => exact parseJ_quoted s

/-- `JSON.stringify` never produces the empty (falsy) string. -/
theorem stringifyJ_ne_nil (v : JVal) : stringifyJ v ≠ [] := by
  match v with
  | .jnull => simp [stringifyJ]
  | .jbool true => simp [stringifyJ]
  | .jbool false => simp [stringifyJ]
  | .jnum i =>
    by_cases hi : i < 0 <;> simp [stringifyJ, hi, natDigits_ne_nil]
  | .jstr s => simp [stringifyJ]

/-- C5: a successful `setValue x` leaves `x` in memory and persists its
serialised form, and a fresh binding constructed over the resulting store
with the same key reads `x` back as its initial value: the store's
deserialisation of the key equals the in-memory value. -/
theorem useLocalStorage_roundtrip (persistOk : Bool) (store : LocalStore) (key : String)
    (initialValue x : JVal) (h : persistOk = true) :
    useLocalStorage_read (useLocalStorage_setValue persistOk store key x).2 key initialValue = x ∧
    (useLocalStorage_setValue persistOk store key x).1 = x ∧
    (useLocalStorage_setValue persistOk store key x).2 key = some (stringifyJ x) ∧
    parseJ (stringifyJ x) = some x := by
  subst h
  refine ⟨?_, rfl, ?_, parseJ_stringifyJ x⟩
  · simp [useLocalStorage_setValue, useLocalStorage_read, List.isEmpty_iff,
      stringifyJ_ne_nil x, parseJ_stringifyJ x]
  · simp [useLocalStorage_setValue]

/-- A concrete round trip discharging the hypothesis of
`useLocalStorage_roundtrip`: persisting -42 under a key and re-reading
it through a fresh binding. -/
theorem useLocalStorage_roundtrip_witness :
    (true : Bool) = true ∧
    useLocalStorage_read ((useLocalStorage_setValue true (fun _ => none) "theme"
        (JVal.jnum (-42))).2) "theme" JVal.jnull = JVal.jnum (-42) :=
  ⟨rfl, (useLocalStorage_roundtrip true (fun _ => none) "theme" JVal.jnull
    (JVal.jnum (-42)) rfl).1⟩
